import Mathlib

/-!
Verification of the run-lifecycle and checkpoint-resumption manager of
`pad_experiments.py` (function `resume_or_start` and the learning-rate
restore loop in `main`).

The embedding models:
  * filesystem paths as lists of components (`FilePath`);
  * Python `str.split` (for the single-character separators `'='`, `'-'`,
    `'/'` and the two-character separator `': '`), `str.strip` and
    `int(str)` as structurally recursive functions over character lists;
  * `pathlib.PurePath.stem` (drop the final suffix);
  * the three epoch-parsing call sites (scanner at line 71, evaluate-only
    branch at line 63, explicit-resume branch at line 82), each transcribed
    separately because the source duplicates the expression;
  * the checkpoint-directory scan (a Python dict comprehension, modelled as
    an insertion-ordered association list with overwrite-on-collision);
  * `resume_or_start` itself, with its `mkdir` side effect recorded as a
    list of created directories;
  * the learning-rate restore loop of `main` (lines 223-231), whose
    unbound-variable failure when no ledger line matches is modelled as the
    `lrNotFound` error.
Learning-rate values are kept as their raw ledger tokens (the source applies
`float` to the token; the claims only compare values for identity, which the
token preserves).
-/

namespace PadExperiments

/-- A filesystem path, as its list of components (`pathlib` style:
`Path "a/b/c"` is `["a", "b", "c"]`; `parent` drops the last component). -/
abbrev FilePath := List String

/-- Remove `pre` from the front of `cs`, or `none` if it is not a prefix. -/
def dropPrefixOpt : List Char → List Char → Option (List Char)
  | [], cs => some cs
  | _ :: _, [] => none
  | a :: as, b :: bs => if a == b then dropPrefixOpt as bs else none

/-- Python `s.startswith(pre)`. -/
def pyStartsWith (pre s : String) : Bool := (dropPrefixOpt pre.toList s.toList).isSome

/-- Python `s.split(sep)` for a single-character separator, over chars.
Always returns a nonempty list. -/
def splitChar (sep : Char) : List Char → List (List Char)
  | [] => [[]]
  | c :: cs =>
    if c == sep then [] :: splitChar sep cs
    else
      match splitChar sep cs with
      | [] => [[c]]
      | h :: t => (c :: h) :: t

/-- Python `s.split(': ')`: split on the two-character separator `': '`,
scanning left to right without overlap. -/
def splitColonSpace : List Char → List (List Char)
  | [] => [[]]
  | [c] => [[c]]
  | c1 :: c2 :: cs =>
    if c1 == ':' && c2 == ' ' then [] :: splitColonSpace cs
    else
      match splitColonSpace (c2 :: cs) with
      | [] => [[c1]]
      | h :: t => (c1 :: h) :: t

/-- Python whitespace for `str.strip`. -/
def isPyWhitespace (c : Char) : Bool :=
  c == ' ' || c == '\t' || c == '\n' || c == '\r' || c == '\x0b' || c == '\x0c'

/-- Drop leading whitespace. -/
def dropLeadingWs : List Char → List Char
  | [] => []
  | c :: cs => if isPyWhitespace c then dropLeadingWs cs else c :: cs

/-- Python `s.strip()`: drop trailing then leading whitespace. -/
def pyStrip (cs : List Char) : List Char :=
  dropLeadingWs ((dropLeadingWs cs.reverse).reverse)

/-- Decimal digit test for Python `int` parsing. -/
def isAsciiDigit (c : Char) : Bool := decide ('0' ≤ c) && decide (c ≤ '9')

/-- Value of a digit character. -/
def digitVal (c : Char) : Nat := c.toNat - '0'.toNat

/-- Accumulate an all-digit character list into a number. -/
def digitsAcc : List Char → Nat → Option Nat
  | [], acc => some acc
  | c :: cs, acc =>
    if isAsciiDigit c then digitsAcc cs (acc * 10 + digitVal c) else none

/-- Parse a nonempty decimal digit string. -/
def digitsVal : List Char → Option Nat
  | [] => none
  | cs => digitsAcc cs 0

/-- Python `int(s)` on decimal literals: surrounding whitespace stripped,
optional sign, then one or more digits (digit-group underscores are not
modelled; no claim involves them). `none` models the `ValueError`. -/
def pyInt (s : String) : Option Int :=
  match pyStrip s.toList with
  | '+' :: cs => (digitsVal cs).map (fun n => (n : Int))
  | '-' :: cs => (digitsVal cs).map (fun n => -(n : Int))
  | cs => (digitsVal cs).map (fun n => (n : Int))

/-- `pathlib.Path(s)` for a plain relative or absolute path string. -/
def pathOf (s : String) : FilePath := (splitChar '/' s.toList).map List.asString

/-- `Path.name`: the final path component. -/
def pathLastName (p : FilePath) : String := (p.getLast?).getD ""

/-- `Path.parent`: drop the final component. -/
def parentPath (p : FilePath) : FilePath := p.dropLast

/-- Index of the last `'.'` in a character list, if any. -/
def lastDotIdx (cs : List Char) : Option Nat :=
  ((List.range cs.length).filter (fun i => cs.getD i ' ' == '.')).getLast?

/-- `pathlib.PurePath.stem` on a file name: strip the final suffix.
pathlib keeps the whole name when the last dot is at position 0 (hidden
file) or at the very end. -/
def pathStem (name : String) : String :=
  let cs := name.toList
  match lastDotIdx cs with
  | none => name
  | some i => if 0 < i && i < cs.length - 1 then (cs.take i).asString else name

/-- Epoch parsing at the Checkpoint Store Scanner call site (line 71):
`int(x.stem.split('=')[-1])` — the token after the LAST `'='`. -/
def parse_epoch_scan (s : String) : Option Int :=
  pyInt ((((splitChar '=' s.toList).getLast?).getD []).asString)

/-- Epoch parsing in the evaluate-only branch (line 63):
`int(load_checkpoint.stem.split('=')[1].split('-')[0])` — the token after
the FIRST `'='`, cut at the next `'-'`. `none` models both the
`IndexError` (no `'='`) and the `ValueError` (non-numeric token). -/
def parse_epoch_eval (s : String) : Option Int :=
  ((splitChar '=' s.toList)[1]?).bind
    (fun t => pyInt ((((splitChar '-' t).head?).getD []).asString))

/-- Epoch parsing in the explicit-resume branch (line 82):
`int(resume.stem.split('=')[1].split('-')[0])`, transcribed separately
because the source repeats the expression at a second call site. -/
def parse_epoch_resume (s : String) : Option Int :=
  ((splitChar '=' s.toList)[1]?).bind
    (fun t => pyInt ((((splitChar '-' t).head?).getD []).asString))

/-- Failure modes of the resolution, named after the spec's error taxonomy
where it has a name for them; in the source each is an uncaught Python
exception (noted per constructor). -/
inductive ResolveError where
  /-- `main` exits when `train` is false and no `load_checkpoint` is given. -/
  | noLoadCheckpoint
  /-- `UnparsableCheckpointNameError`: `ValueError`/`IndexError` from parsing
  an explicitly supplied checkpoint name (lines 63 and 82). -/
  | unparsableName
  /-- `ValueError` raised inside the scan's dict comprehension (line 71). -/
  | scanParse
  /-- `NoRunsFoundError`: `IndexError` from `run_paths[-1]` (line 69). -/
  | noRuns
  /-- `EmptyCheckpointStoreError`: `IndexError` from `sorted(keys)[-1]`
  (line 72). -/
  | emptyStore
  /-- `FileNotFoundError` from `open(run_path / 'lrs.txt')` (line 225). -/
  | ledgerMissing
  /-- `ValueError`/`IndexError` from parsing a ledger line (lines 227-229). -/
  | ledgerParse
  /-- `LearningRateNotFoundError`: no ledger line matched, so
  `init_learning_rate` is unbound at line 231 (`NameError`). -/
  | lrNotFound
deriving DecidableEq

/-- The observable filesystem state: directory listings (entry names) and
the lines of `<p>/lrs.txt` (`none` when the file is missing). -/
structure FS where
  listDir : FilePath → List String
  ledgerLines : FilePath → Option (List String)

/-- The inputs `resume_or_start` receives from the argument parser. -/
structure Args where
  train : Bool
  resume : Option String
  num_epochs : Int
  load_checkpoint : Option String

/-- Python dict insert: overwrite in place on an existing key, else append
(insertion order preserved, as in a dict comprehension). -/
def dictInsert (d : List (Int × FilePath)) (k : Int) (v : FilePath) :
    List (Int × FilePath) :=
  if d.any (fun p => p.1 == k) then
    d.map (fun p => if p.1 == k then (k, v) else p)
  else d ++ [(k, v)]

/-- Python dict lookup `d[k]` (keys are unique, so the first hit is it). -/
def dictGet (d : List (Int × FilePath)) (k : Int) : Option FilePath :=
  (d.find? (fun p => p.1 == k)).map (fun p => p.2)

/-- The dict comprehension of line 71:
`{int(x.stem.split('=')[-1]): x for x in (run_path / 'checkpoints').glob('*')}`.
A parse failure raises `ValueError` out of the whole comprehension. -/
def scan_loop (run_path : FilePath) (d : List (Int × FilePath)) :
    List String → Except ResolveError (List (Int × FilePath))
  | [] => .ok d
  | name :: rest =>
    match parse_epoch_scan (pathStem name) with
    | none => .error .scanParse
    | some e => scan_loop run_path (dictInsert d e (run_path ++ ["checkpoints", name])) rest

/-- Scan a run's checkpoint directory (entry names as listed). -/
def scan_checkpoints (run_path : FilePath) (entries : List String) :
    Except ResolveError (List (Int × FilePath)) :=
  scan_loop run_path [] entries

/-- Whether a scan result is a success. -/
def scanOk : Except ResolveError (List (Int × FilePath)) → Bool
  | .ok _ => true
  | .error _ => false

/-- Python string `<`: codepoint-lexicographic, over chars. -/
def strLtChars : List Char → List Char → Bool
  | [], [] => false
  | [], _ :: _ => true
  | _ :: _, [] => false
  | a :: as, b :: bs => if a == b then strLtChars as bs else decide (a.toNat < b.toNat)

/-- Python string `<=`. -/
def pyStrLe (a b : String) : Bool := a == b || strLtChars a.toList b.toList

/-- Insert a string into a sorted list (Python string order is
codepoint-lexicographic). -/
def insertSortedStr (x : String) : List String → List String
  | [] => [x]
  | y :: ys => if pyStrLe x y then x :: y :: ys else y :: insertSortedStr x ys

/-- Python `sorted` on strings. -/
def sortedStr (l : List String) : List String := l.foldr insertSortedStr []

/-- Insert an integer into a `≤`-sorted list. -/
def insertSortedInt (x : Int) : List Int → List Int
  | [] => [x]
  | y :: ys => if x ≤ y then x :: y :: ys else y :: insertSortedInt x ys

/-- Python `sorted` on integers. -/
def sortedInt (l : List Int) : List Int := l.foldr insertSortedInt []

/-- The tuple returned by `resume_or_start`, with the directories its
`mkdir` calls create recorded in `created_dirs`. -/
structure ResumeResult where
  run_path : FilePath
  resume_from_checkpoint : Option FilePath
  max_epoch : Int
  init_epoch : Int
  created_dirs : List FilePath
deriving DecidableEq

/-- `resume_or_start(results_path, resume, train, num_epochs, load_checkpoint)`
(lines 33-94). `run_ts` is the `datetime.now().strftime("%Y%m%d%H%M%S")`
second-granularity timestamp, supplied as an input. `glob('run_*')` is
modelled as filtering the directory listing on the `run_` prefix, and
`glob('*')` as the whole directory listing (`pathlib`'s `glob` returns
hidden dot-entries too, unlike the `glob` module); `sorted` on the glob
result compares the run names. The listing order of `glob` is arbitrary,
so the model takes it as the filesystem presents it. -/
def resume_or_start (fs : FS) (results_path : FilePath) (a : Args)
    (run_ts : String) : Except ResolveError ResumeResult :=
  if a.train = false then
    -- Load the given checkpoint to test with
    match a.load_checkpoint with
    | none => .error .noLoadCheckpoint
    | some s =>
      let lc := pathOf s
      let run_path := parentPath (parentPath lc)
      match parse_epoch_eval (pathStem (pathLastName lc)) with
      | none => .error .unparsableName
      | some init_epoch =>
        .ok ⟨run_path, some lc, init_epoch + 1, init_epoch, []⟩
  else if a.resume = some "last" then
    -- Use last run's latest checkpoint to resume training
    let run_names := sortedStr ((fs.listDir results_path).filter (fun n => pyStartsWith "run_" n))
    match run_names.getLast? with
    | none => .error .noRuns
    | some r =>
      let run_path := results_path ++ [r]
      let entries := fs.listDir (run_path ++ ["checkpoints"])
      match scan_checkpoints run_path entries with
      | .error e => .error e
      | .ok epoch_ckpt =>
        match (sortedInt (epoch_ckpt.map (fun p => p.1))).getLast? with
        | none => .error .emptyStore
        | some init_epoch =>
          match dictGet epoch_ckpt init_epoch with
          | none => .error .emptyStore   -- unreachable: init_epoch is drawn from the keys
          | some ckpt_path =>
            .ok ⟨run_path, some ckpt_path, init_epoch + a.num_epochs, init_epoch, []⟩
  else
    match a.resume with
    | some s =>
      -- Load the given checkpoint to resume training
      let rp := pathOf s
      let run_path := parentPath (parentPath rp)
      match parse_epoch_resume (pathStem (pathLastName rp)) with
      | none => .error .unparsableName
      | some init_epoch =>
        .ok ⟨run_path, some rp, init_epoch + a.num_epochs, init_epoch, []⟩
    | none =>
      -- Create folder to save this run's results into
      let run_path := results_path ++ [String.append "run_" run_ts]
      .ok ⟨run_path, none, a.num_epochs, 0, [run_path]⟩

/-- Epoch field of a ledger line: `int(line.strip().split(': ')[0])`. -/
def line_epoch (line : String) : Option Int :=
  pyInt ((((splitColonSpace (pyStrip line.toList)).head?).getD []).asString)

/-- Value field of a ledger line: `line.strip().split(': ')[1]`, kept as the
raw token (the source applies `float` to it). -/
def line_value (line : String) : Option String :=
  ((splitColonSpace (pyStrip line.toList))[1]?).map List.asString

/-- The restore loop of `main` (lines 226-229): scan every line of
`lrs.txt`; a line whose epoch field equals `init_epoch` overwrites the
learning rate gathered so far. -/
def restore_loop (init_epoch : Int) (st : Option String) :
    List String → Except ResolveError (Option String)
  | [] => .ok st
  | line :: rest =>
    match line_epoch line with
    | none => .error .ledgerParse
    | some k =>
      if k = init_epoch then
        match line_value line with
        | none => .error .ledgerParse
        | some v => restore_loop init_epoch (some v) rest
      else restore_loop init_epoch st rest

/-- Restoring the learning rate from the ledger: the whole loop, followed by
the first use of `init_learning_rate` (line 231), which raises `NameError`
(spec: `LearningRateNotFoundError`) when no line matched. -/
def restore_learning_rate (lines : List String) (init_epoch : Int) :
    Except ResolveError String :=
  match restore_loop init_epoch none lines with
  | .error e => .error e
  | .ok none => .error .lrNotFound
  | .ok (some v) => .ok v

/-- The resolved execution plan: `resume_or_start`'s tuple plus the restored
learning rate of `main`'s `if args.resume is not None:` block. -/
structure ExecutionPlan where
  run_path : FilePath
  checkpoint_to_load : Option FilePath
  start_epoch : Int
  end_epoch : Int
  restored_learning_rate : Option String
  created_dirs : List FilePath
deriving DecidableEq

/-- The whole resolution as performed by `main` for the checkpoint-restoring
model branches (`convlstm`, `convstar`, `unet`, `utae`, which share this
code verbatim): call `resume_or_start`, then, exactly when a `resume`
argument was supplied, read `<run_path>/lrs.txt` and restore the learning
rate (lines 223-231). -/
def resolve_plan (fs : FS) (results_path : FilePath) (a : Args)
    (run_ts : String) : Except ResolveError ExecutionPlan :=
  match resume_or_start fs results_path a run_ts with
  | .error e => .error e
  | .ok r =>
    match a.resume with
    | none =>
      .ok ⟨r.run_path, r.resume_from_checkpoint, r.init_epoch, r.max_epoch,
           none, r.created_dirs⟩
    | some _ =>
      match fs.ledgerLines r.run_path with
      | none => .error .ledgerMissing
      | some lines =>
        match restore_learning_rate lines r.init_epoch with
        | .error e => .error e
        | .ok v =>
          .ok ⟨r.run_path, r.resume_from_checkpoint, r.init_epoch, r.max_epoch,
               some v, r.created_dirs⟩

/-- A filesystem with no entries at all (an empty results root). -/
def emptyFS : FS where
  listDir _ := []
  ledgerLines _ := none

/-- A run `run_a` whose only checkpoint is for epoch 4 while the ledger has
lines for epochs 0 and 3 only. -/
def fsC2 : FS where
  listDir p :=
    if p = ["results"] then ["run_a"]
    else if p = ["results", "run_a", "checkpoints"] then ["epoch=4.ckpt"]
    else []
  ledgerLines p :=
    if p = ["results", "run_a"] then some ["0: 0.1", "3: 0.05"] else none

/-- A run `run_a` with checkpoints and ledger lines for epochs 0..4; the
checkpoint directory is listed in an arbitrary (non-ascending) enumeration
order, as a real directory listing may be. -/
def fsC3 : FS where
  listDir p :=
    if p = ["results"] then ["run_a"]
    else if p = ["results", "run_a", "checkpoints"] then
      ["epoch=2.ckpt", "epoch=0.ckpt", "epoch=4.ckpt", "epoch=1.ckpt", "epoch=3.ckpt"]
    else []
  ledgerLines p :=
    if p = ["results", "run_a"] then
      some ["0: 0.0", "1: 0.1", "2: 0.2", "3: 0.3", "4: 0.4"]
    else none

/-- A results root with runs `run_a` and `run_b` (plus a stray entry); the
latest run `run_b` has checkpoints for epochs 0 and 1 and a matching
ledger. -/
def testFS : FS where
  listDir p :=
    if p = ["results"] then ["run_b", "run_a", "notes.txt"]
    else if p = ["results", "run_b", "checkpoints"] then ["epoch=0.ckpt", "epoch=1.ckpt"]
    else []
  ledgerLines p :=
    if p = ["results", "run_b"] then some ["0: 0.1", "1: 0.05"] else none

/-- A run whose ledger holds two lines for epoch 3 (values 0.1 then 0.2). -/
def fsC10 : FS where
  listDir _ := []
  ledgerLines p :=
    if p = ["runs", "r1"] then some ["3: 0.1", "2: 0.9", "3: 0.2"] else none

end PadExperiments


namespace PadExperiments

/-! ### Claim C1 -/

/-- C1 counterexample: the claim that the Checkpoint Store Scanner and the
evaluate-only / explicit-resume branches extract the same epoch from every
checkpoint name is false at the stem `epoch=3-step=100`: the scanner
(`split('=')[-1]`) extracts 100 — the step count — while the branch rule
(`split('=')[1].split('-')[0]`) extracts 3. -/
theorem claim_C1_counterexample :
    parse_epoch_scan "epoch=3-step=100" = some 100 ∧
    parse_epoch_eval "epoch=3-step=100" = some 3 ∧
    parse_epoch_resume "epoch=3-step=100" = some 3 ∧
    parse_epoch_scan "epoch=3-step=100" ≠ parse_epoch_eval "epoch=3-step=100" := by
  refine ⟨by decide, by decide, by decide, by decide⟩

/-- C1 (amended): the evaluate-only branch and the explicit-resume branch
extract epochs by the identical rule, and the scanner's distinct rule agrees
with theirs on any stem that splits on `'='` into exactly two parts whose
second part contains no `'-'`; on other stems (such as
`epoch=3-step=100`) the two rules may diverge. -/
theorem claim_C1 :
    (∀ s, parse_epoch_eval s = parse_epoch_resume s) ∧
    (∀ (s : String) (a b : List Char), splitChar '=' s.toList = [a, b] →
      splitChar '-' b = [b] → parse_epoch_scan s = parse_epoch_eval s) := by
  constructor
  · intro s
    rfl
  · intro s a b h1 h2
    have h1' : splitChar '=' s.data = [a, b] := h1
    simp [parse_epoch_scan, parse_epoch_eval, h1', h2]

/-- C1 witness: both parts of the amended claim at concrete stems. -/
theorem claim_C1_witness :
    parse_epoch_eval "epoch=5-x.ckpt" = parse_epoch_resume "epoch=5-x.ckpt" ∧
    parse_epoch_scan "epoch=7" = parse_epoch_eval "epoch=7" :=
  ⟨claim_C1.1 "epoch=5-x.ckpt",
   claim_C1.2 "epoch=7" "epoch".toList "7".toList (by decide) (by decide)⟩

/-! ### Claim C5 -/

/-- C5 counterexample: a fresh start against an empty results root creates
exactly one directory — the run directory — and no nested `checkpoints`
subdirectory, refuting the claim that the checkpoint subdirectory is created
together with it. -/
theorem claim_C5_counterexample :
    resolve_plan emptyFS ["results"] ⟨true, none, 10, none⟩ "20240101000000" =
      .ok ⟨["results", "run_20240101000000"], none, 0, 10, none,
           [["results", "run_20240101000000"]]⟩ ∧
    ∀ p ∈ [["results", "run_20240101000000"]], "checkpoints" ∉ p := by
  exact ⟨by rfl, by decide⟩

/-- C5 (amended): every fresh-start invocation (train, no resume) resolves to
start_epoch 0, end_epoch = requested_num_epochs, no checkpoint to load, no
restored learning rate, and creates exactly one new directory: the run
directory, named `run_<timestamp at second granularity>`. No nested
checkpoint subdirectory is created at resolution time (the training engine's
checkpoint callback creates it later). -/
theorem claim_C5 (fs : FS) (results_path : FilePath) (num : Int)
    (lc : Option String) (run_ts : String) :
    resolve_plan fs results_path ⟨true, none, num, lc⟩ run_ts =
      .ok ⟨results_path ++ [String.append "run_" run_ts], none, 0, num, none,
           [results_path ++ [String.append "run_" run_ts]]⟩ := by
  rfl

/-! ### Claim C7 -/

/-- C7 counterexample: scanning a checkpoint directory that holds one entry
with a parseable name and one without fails (the `ValueError` escapes the
dict comprehension); the unparsable entry is not skipped and no mapping is
returned. -/
theorem claim_C7_counterexample :
    scan_checkpoints ["results", "run_a"] ["epoch=1.ckpt", "garbage"] =
      .error .scanParse := by
  rfl

/-- The scan loop succeeds exactly when every remaining entry parses. -/
theorem scan_loop_ok_iff (rp : FilePath) (entries : List String) :
    ∀ d : List (Int × FilePath),
      scanOk (scan_loop rp d entries) = true ↔
        ∀ n ∈ entries, (parse_epoch_scan (pathStem n)).isSome := by
  induction entries with
  | nil => intro d; simp [scan_loop, scanOk]
  | cons name rest ih =>
    intro d
    cases h : parse_epoch_scan (pathStem name) with
    | none => simp [scan_loop, h, scanOk]
    | some e => simp [scan_loop, h, ih]

/-- C7 (amended): scanning a run checkpoint directory succeeds if and only if
every entry's name yields a parseable epoch number; an unparsable entry makes
the whole scan fail with a `ValueError` instead of being silently skipped. -/
theorem claim_C7 (rp : FilePath) (entries : List String) :
    scanOk (scan_checkpoints rp entries) = true ↔
      ∀ n ∈ entries, (parse_epoch_scan (pathStem n)).isSome :=
  scan_loop_ok_iff rp entries []

/-- C7 witness: a directory whose entries all parse scans successfully. -/
theorem claim_C7_witness :
    scanOk (scan_checkpoints ["results", "run_a"] ["epoch=0.ckpt", "epoch=1.ckpt"]) = true :=
  (claim_C7 ["results", "run_a"] ["epoch=0.ckpt", "epoch=1.ckpt"]).mpr (by decide)

/-! ### Claim C8 -/

/-- C8: a resume-last invocation against a results root with no `run_*`
directories fails with `NoRunsFoundError` (the `IndexError` of
`run_paths[-1]`); no fresh start is silently substituted. -/
theorem claim_C8 (fs : FS) (results_path : FilePath) (a : Args) (run_ts : String)
    (ht : a.train = true) (hr : a.resume = some "last")
    (hempty : (fs.listDir results_path).filter (fun n => pyStartsWith "run_" n) = []) :
    resolve_plan fs results_path a run_ts = .error .noRuns := by
  simp [resolve_plan, resume_or_start, ht, hr, hempty, sortedStr]

/-- C8 witness: the empty results root at concrete inputs. -/
theorem claim_C8_witness :
    resolve_plan emptyFS ["results"] ⟨true, some "last", 5, none⟩ "TS" =
      .error .noRuns :=
  claim_C8 emptyFS ["results"] ⟨true, some "last", 5, none⟩ "TS" rfl rfl (by decide)

/-! ### Claim C9 -/

/-- C9: an explicit-resume invocation (train, resume = a checkpoint
reference other than "last" whose name embeds epoch `n`) resolves to
start_epoch `n` taken from the supplied reference's own name — the
filesystem (hence whichever checkpoint is latest in the run) is never
consulted — with run_path the parent-of-parent of the reference and
end_epoch `n + num_epochs`. -/
theorem claim_C9 (fs : FS) (results_path : FilePath) (a : Args) (run_ts : String)
    (s : String) (n : Int)
    (ht : a.train = true) (hr : a.resume = some s) (hs : s ≠ "last")
    (hp : parse_epoch_resume (pathStem (pathLastName (pathOf s))) = some n) :
    resume_or_start fs results_path a run_ts =
      .ok ⟨parentPath (parentPath (pathOf s)), some (pathOf s),
           n + a.num_epochs, n, []⟩ := by
  simp [resume_or_start, ht, hr, hs, hp]

/-- C9 witness: resuming from `epoch=7-step=90.ckpt` in `run_a` yields start
epoch 7 even though the filesystem's latest checkpoint (in `run_b`) is for
epoch 1. -/
theorem claim_C9_witness :
    resume_or_start testFS ["results"]
        ⟨true, some "results/run_a/checkpoints/epoch=7-step=90.ckpt", 10, none⟩ "TS" =
      .ok ⟨["results", "run_a"],
           some ["results", "run_a", "checkpoints", "epoch=7-step=90.ckpt"],
           17, 7, []⟩ :=
  claim_C9 testFS ["results"]
    ⟨true, some "results/run_a/checkpoints/epoch=7-step=90.ckpt", 10, none⟩ "TS"
    "results/run_a/checkpoints/epoch=7-step=90.ckpt" 7
    rfl rfl (by decide) (by decide)

end PadExperiments

namespace PadExperiments

/-! ### Restore-loop lemmas -/

/-- Ledger lines that parse but never match the resumed epoch leave the
gathered learning rate unchanged. -/
theorem restore_loop_no_match (e : Int) (L : List String)
    (h : ∀ l ∈ L, (line_epoch l).isSome ∧ line_epoch l ≠ some e) :
    ∀ st, restore_loop e st L = .ok st := by
  induction L with
  | nil => intro st; rfl
  | cons l rest ih =>
    intro st
    obtain ⟨hsome, hne⟩ := h l (List.mem_cons_self l rest)
    cases hl : line_epoch l with
    | none => rw [hl] at hsome; simp at hsome
    | some k =>
      rw [hl] at hne
      have hk : ¬ (k = e) := fun hEq => hne (by rw [hEq])
      simp only [restore_loop, hl]
      rw [if_neg hk]
      exact ih (fun x hx => h x (List.mem_cons_of_mem _ hx)) st

/-- Fully parseable ledger lines can never abort the restore loop. -/
theorem restore_loop_ok (e : Int) (L : List String)
    (h : ∀ l ∈ L, (line_epoch l).isSome ∧
          (line_epoch l = some e → (line_value l).isSome)) :
    ∀ st, ∃ st2, restore_loop e st L = .ok st2 := by
  induction L with
  | nil => intro st; exact ⟨st, rfl⟩
  | cons l rest ih =>
    intro st
    obtain ⟨hsome, hval⟩ := h l (List.mem_cons_self l rest)
    have htail := fun x hx => h x (List.mem_cons_of_mem _ hx)
    cases hl : line_epoch l with
    | none => rw [hl] at hsome; simp at hsome
    | some k =>
      by_cases hk : k = e
      · have hv' : (line_value l).isSome := hval (by rw [hl, hk])
        cases hv : line_value l with
        | none => rw [hv] at hv'; simp at hv'
        | some v =>
          obtain ⟨st2, hst2⟩ := ih htail (some v)
          refine ⟨st2, ?_⟩
          simp only [restore_loop, hl]
          rw [if_pos hk, hv]
          exact hst2
      · obtain ⟨st2, hst2⟩ := ih htail st
        refine ⟨st2, ?_⟩
        simp only [restore_loop, hl]
        rw [if_neg hk]
        exact hst2

/-- When the restore loop completes the first half of a file, running the
whole file continues from the gathered state. -/
theorem restore_loop_append_ok (e : Int) (L1 L2 : List String) :
    ∀ st st1, restore_loop e st L1 = .ok st1 →
      restore_loop e st (L1 ++ L2) = restore_loop e st1 L2 := by
  induction L1 with
  | nil =>
    intro st st1 h
    cases h
    rfl
  | cons l rest ih =>
    intro st st1 h
    cases hl : line_epoch l with
    | none =>
      simp only [restore_loop, hl] at h
      cases h
    | some k =>
      by_cases hk : k = e
      · cases hv : line_value l with
        | none =>
          simp only [restore_loop, hl] at h
          rw [if_pos hk, hv] at h
          cases h
        | some v =>
          simp only [restore_loop, hl] at h
          rw [if_pos hk, hv] at h
          simp only [List.cons_append, restore_loop, hl]
          rw [if_pos hk, hv]
          exact ih (some v) st1 h
      · simp only [restore_loop, hl] at h
        rw [if_neg hk] at h
        simp only [List.cons_append, restore_loop, hl]
        rw [if_neg hk]
        exact ih st st1 h

/-! ### Claim C2 -/

/-- C2: a mid-training resume (train mode with a resume argument) whose
resolved start epoch has no ledger line with that exact epoch as its first
field makes the whole resolution fail with `LearningRateNotFoundError`; no
default and no nearest entry is ever substituted. -/
theorem claim_C2 (fs : FS) (results_path : FilePath) (a : Args) (run_ts : String)
    (r : ResumeResult) (lines : List String)
    (ht : a.train = true) (hr : a.resume.isSome)
    (hok : resume_or_start fs results_path a run_ts = .ok r)
    (hl : fs.ledgerLines r.run_path = some lines)
    (hm : ∀ l ∈ lines, (line_epoch l).isSome ∧ line_epoch l ≠ some r.init_epoch) :
    resolve_plan fs results_path a run_ts = .error .lrNotFound := by
  obtain ⟨s, hs⟩ := Option.isSome_iff_exists.mp hr
  have hrest : restore_learning_rate lines r.init_epoch = .error .lrNotFound := by
    unfold restore_learning_rate
    rw [restore_loop_no_match r.init_epoch lines hm none]
  simp [resolve_plan, hok, hs, hl, hrest]

/-- C2 witness: resume-last with a checkpoint for epoch 4 but ledger lines
only for epochs 0 and 3 fails with `LearningRateNotFoundError`. -/
theorem claim_C2_witness :
    resolve_plan fsC2 ["results"] ⟨true, some "last", 5, none⟩ "TS" =
      .error .lrNotFound :=
  claim_C2 fsC2 ["results"] ⟨true, some "last", 5, none⟩ "TS"
    ⟨["results", "run_a"], some ["results", "run_a", "checkpoints", "epoch=4.ckpt"],
     9, 4, []⟩
    ["0: 0.1", "3: 0.05"]
    rfl rfl (by rfl) (by rfl) (by decide)

/-! ### Claim C4 -/

/-- C4 counterexample: an evaluate-only invocation (train = false) that also
carries a resume argument resolves with a PRESENT restored learning rate
(the `if args.resume is not None:` block of `main` runs regardless of
`train`), refuting the claim that `restored_learning_rate` is absent for
every evaluate-only invocation. -/
theorem claim_C4_counterexample :
    resolve_plan testFS ["results"]
        ⟨false, some "x", 10, some "results/run_b/checkpoints/epoch=1.ckpt"⟩ "TS" =
      .ok ⟨["results", "run_b"],
           some ["results", "run_b", "checkpoints", "epoch=1.ckpt"],
           1, 2, some "0.05", []⟩ := by
  rfl

/-- C4 (amended): in every successfully resolved plan,
`restored_learning_rate` is present if and only if a resume argument was
supplied — regardless of `train`; in particular it is present for an
evaluate-only invocation with a resume argument, and absent for every fresh
start and for evaluate-only invocations without one. -/
theorem claim_C4 (fs : FS) (results_path : FilePath) (a : Args) (run_ts : String)
    (p : ExecutionPlan)
    (hok : resolve_plan fs results_path a run_ts = .ok p) :
    p.restored_learning_rate.isSome = a.resume.isSome := by
  cases hro : resume_or_start fs results_path a run_ts with
  | error e =>
    have heq : resolve_plan fs results_path a run_ts = .error e := by
      simp [resolve_plan, hro]
    rw [heq] at hok
    cases hok
  | ok r =>
    cases hrs : a.resume with
    | none =>
      have heq : resolve_plan fs results_path a run_ts =
          .ok ⟨r.run_path, r.resume_from_checkpoint, r.init_epoch, r.max_epoch,
               none, r.created_dirs⟩ := by
        simp [resolve_plan, hro, hrs]
      rw [heq] at hok
      cases hok
      rfl
    | some s =>
      cases hll : fs.ledgerLines r.run_path with
      | none =>
        have heq : resolve_plan fs results_path a run_ts = .error .ledgerMissing := by
          simp [resolve_plan, hro, hrs, hll]
        rw [heq] at hok
        cases hok
      | some lines =>
        cases hrl : restore_learning_rate lines r.init_epoch with
        | error e =>
          have heq : resolve_plan fs results_path a run_ts = .error e := by
            simp [resolve_plan, hro, hrs, hll, hrl]
          rw [heq] at hok
          cases hok
        | ok v =>
          have heq : resolve_plan fs results_path a run_ts =
              .ok ⟨r.run_path, r.resume_from_checkpoint, r.init_epoch, r.max_epoch,
                   some v, r.created_dirs⟩ := by
            simp [resolve_plan, hro, hrs, hll, hrl]
          rw [heq] at hok
          cases hok
          rfl

/-- C4 witness: the amended equivalence at the evaluate-only-with-resume
instance of the counterexample. -/
theorem claim_C4_witness :
    (Option.some "0.05").isSome = (Option.some "x").isSome :=
  claim_C4 testFS ["results"]
    ⟨false, some "x", 10, some "results/run_b/checkpoints/epoch=1.ckpt"⟩ "TS"
    ⟨["results", "run_b"], some ["results", "run_b", "checkpoints", "epoch=1.ckpt"],
     1, 2, some "0.05", []⟩
    (by rfl)

/-! ### Claim C6 -/

/-- C6 counterexample: an evaluate-only invocation whose checkpoint embeds
epoch 0 but which also carries a resume argument yields
`restored_learning_rate = some "0.1"`, not `None`, refuting the claim for
evaluate-only invocations where a resume argument is also supplied. -/
theorem claim_C6_counterexample :
    resolve_plan testFS ["results"]
        ⟨false, some "y", 3, some "results/run_b/checkpoints/epoch=0.ckpt"⟩ "TS" =
      .ok ⟨["results", "run_b"],
           some ["results", "run_b", "checkpoints", "epoch=0.ckpt"],
           0, 1, some "0.1", []⟩ := by
  rfl

/-- C6 (amended): an evaluate-only invocation (train = false, checkpoint
name embedding epoch `n`) with NO resume argument resolves to run_path =
parent-of-parent of the checkpoint's path, start_epoch `n`, end_epoch
`n + 1`, checkpoint_to_load = the given checkpoint, and no restored
learning rate. (With a resume argument also supplied, the learning-rate
restore runs — see the counterexample.) -/
theorem claim_C6 (fs : FS) (results_path : FilePath) (a : Args) (run_ts : String)
    (s : String) (n : Int)
    (ht : a.train = false) (hlc : a.load_checkpoint = some s)
    (hr : a.resume = none)
    (hp : parse_epoch_eval (pathStem (pathLastName (pathOf s))) = some n) :
    resolve_plan fs results_path a run_ts =
      .ok ⟨parentPath (parentPath (pathOf s)), some (pathOf s), n, n + 1, none, []⟩ := by
  simp [resolve_plan, resume_or_start, ht, hlc, hr, hp]

/-- C6 witness: evaluating from `epoch=1.ckpt` with no resume argument. -/
theorem claim_C6_witness :
    resolve_plan testFS ["results"]
        ⟨false, none, 10, some "results/run_b/checkpoints/epoch=1.ckpt"⟩ "TS" =
      .ok ⟨["results", "run_b"],
           some ["results", "run_b", "checkpoints", "epoch=1.ckpt"],
           1, 2, none, []⟩ :=
  claim_C6 testFS ["results"]
    ⟨false, none, 10, some "results/run_b/checkpoints/epoch=1.ckpt"⟩ "TS"
    "results/run_b/checkpoints/epoch=1.ckpt" 1
    rfl rfl rfl (by decide)

/-! ### Claim C10 -/

/-- C10: when the ledger holds several lines whose epoch field equals the
resolved start epoch, the restored learning rate is the value of the LAST
such line in file order — the loop scans the whole file and later matches
overwrite earlier ones. -/
theorem claim_C10 (fs : FS) (results_path : FilePath) (a : Args) (run_ts : String)
    (r : ResumeResult) (L1 L2 : List String) (m : String) (v : String)
    (ht : a.train = true) (hr : a.resume.isSome)
    (hok : resume_or_start fs results_path a run_ts = .ok r)
    (hl : fs.ledgerLines r.run_path = some (L1 ++ m :: L2))
    (h1 : ∀ l ∈ L1, (line_epoch l).isSome ∧
          (line_epoch l = some r.init_epoch → (line_value l).isSome))
    (hm1 : line_epoch m = some r.init_epoch) (hm2 : line_value m = some v)
    (h2 : ∀ l ∈ L2, (line_epoch l).isSome ∧ line_epoch l ≠ some r.init_epoch) :
    resolve_plan fs results_path a run_ts =
      .ok ⟨r.run_path, r.resume_from_checkpoint, r.init_epoch, r.max_epoch,
           some v, r.created_dirs⟩ := by
  obtain ⟨s, hs⟩ := Option.isSome_iff_exists.mp hr
  obtain ⟨st1, hst1⟩ := restore_loop_ok r.init_epoch L1 h1 none
  have hloop : restore_loop r.init_epoch none (L1 ++ m :: L2) = .ok (some v) := by
    rw [restore_loop_append_ok r.init_epoch L1 (m :: L2) none st1 hst1]
    simp only [restore_loop, hm1, if_true]
    rw [hm2]
    exact restore_loop_no_match r.init_epoch L2 h2 (some v)
  have hrest : restore_learning_rate (L1 ++ m :: L2) r.init_epoch = .ok v := by
    unfold restore_learning_rate
    rw [hloop]
  simp [resolve_plan, hok, hs, hl, hrest]

/-- C10 witness: a ledger with lines `3: 0.1`, `2: 0.9`, `3: 0.2` restores
`0.2` — the later epoch-3 line — when resuming at epoch 3. -/
theorem claim_C10_witness :
    resolve_plan fsC10 ["results"]
        ⟨true, some "runs/r1/checkpoints/epoch=3.ckpt", 2, none⟩ "TS" =
      .ok ⟨["runs", "r1"], some ["runs", "r1", "checkpoints", "epoch=3.ckpt"],
           3, 5, some "0.2", []⟩ :=
  claim_C10 fsC10 ["results"] ⟨true, some "runs/r1/checkpoints/epoch=3.ckpt", 2, none⟩ "TS"
    ⟨["runs", "r1"], some ["runs", "r1", "checkpoints", "epoch=3.ckpt"], 5, 3, []⟩
    ["3: 0.1", "2: 0.9"] [] "3: 0.2" "0.2"
    rfl rfl (by rfl) (by rfl) (by decide) (by decide) (by decide) (by decide)

end PadExperiments

namespace PadExperiments

/-! ### Scan and sorting lemmas -/

/-- A mapping none of whose keys is `k` never triggers the overwrite branch
of `dictInsert` at `k`. -/
theorem any_beq_false (k : Int) :
    ∀ d : List (Int × FilePath), (∀ p ∈ d, p.1 ≠ k) →
      (d.any (fun p => p.1 == k)) = false := by
  intro d
  induction d with
  | nil => intro _; rfl
  | cons q rest ih =>
    intro h
    have hq : (q.1 == k) = false :=
      beq_eq_false_iff_ne.mpr (h q (List.mem_cons_self q rest))
    simp only [List.any_cons, hq, Bool.false_or]
    exact ih (fun p hp => h p (List.mem_cons_of_mem _ hp))

/-- Scanning a listing, in whatever enumeration order the filesystem
presents, of entries whose names all parse to pairwise distinct epochs,
succeeds and produces the insertion-ordered mapping pairing each entry with
its parsed epoch. -/
theorem scan_all_parse (rp : FilePath) :
    ∀ (ents : List String) (es : List Nat) (d : List (Int × FilePath)),
      ents.map (fun name => parse_epoch_scan (pathStem name)) =
        es.map (fun (k : Nat) => some (k : Int)) →
      es.Nodup →
      (∀ k ∈ es, ∀ p ∈ d, p.1 ≠ (k : Int)) →
      scan_loop rp d ents =
        .ok (d ++ List.zipWith
          (fun (k : Nat) name => ((k : Int), rp ++ ["checkpoints", name])) es ents) := by
  intro ents
  induction ents with
  | nil =>
    intro es d hmap _ _
    have hes : es = [] := List.map_eq_nil_iff.mp hmap.symm
    subst hes
    simp [scan_loop]
  | cons name rest ih =>
    intro es d hmap hnodup hfresh
    cases es with
    | nil => simp at hmap
    | cons k ks =>
      simp only [List.map_cons, List.cons.injEq] at hmap
      obtain ⟨hname, hrest⟩ := hmap
      rw [List.nodup_cons] at hnodup
      have hins : dictInsert d (k : Int) (rp ++ ["checkpoints", name]) =
          d ++ [((k : Int), rp ++ ["checkpoints", name])] := by
        unfold dictInsert
        rw [any_beq_false (k : Int) d (hfresh k (List.mem_cons_self k ks))]
        rfl
      have hfresh2 : ∀ j ∈ ks, ∀ p ∈ d ++ [((k : Int), rp ++ ["checkpoints", name])],
          p.1 ≠ (j : Int) := by
        intro j hj p hp
        rcases List.mem_append.mp hp with hd | hone
        · exact hfresh j (List.mem_cons_of_mem _ hj) p hd
        · have hpk : p = ((k : Int), rp ++ ["checkpoints", name]) := by
            simpa using hone
          rw [hpk]
          intro hEq
          have hEq2 : (k : Int) = (j : Int) := hEq
          have hkj : k = j := by exact_mod_cast hEq2
          exact hnodup.1 (hkj ▸ hj)
      simp only [scan_loop, hname]
      rw [hins, ih ks (d ++ [((k : Int), rp ++ ["checkpoints", name])]) hrest hnodup.2 hfresh2,
          List.append_assoc]
      rfl

/-- The keys of the scanned mapping are the parsed epochs in listing
order. -/
theorem zipWith_pairs_fst (rp : FilePath) :
    ∀ (es : List Nat) (ents : List String), es.length = ents.length →
      ((List.zipWith (fun (k : Nat) name => ((k : Int), rp ++ ["checkpoints", name]))
          es ents).map (fun p => p.1)) = es.map (fun (k : Nat) => (k : Int)) := by
  intro es
  induction es with
  | nil => intro ents _; rfl
  | cons k ks ih =>
    intro ents hlen
    cases ents with
    | nil => simp at hlen
    | cons name rest =>
      simp only [List.zipWith_cons_cons, List.map_cons]
      rw [ih rest (by simpa using hlen)]

/-- `insertSortedInt` permutes the insertion. -/
theorem insertSortedInt_perm (x : Int) :
    ∀ l : List Int, (insertSortedInt x l).Perm (x :: l) := by
  intro l
  induction l with
  | nil => exact List.Perm.refl _
  | cons y ys ih =>
    simp only [insertSortedInt]
    by_cases h : x ≤ y
    · rw [if_pos h]
    · rw [if_neg h]
      exact (ih.cons y).trans (List.Perm.swap x y ys)

/-- Sorting permutes the list. -/
theorem sortedInt_perm : ∀ l : List Int, (sortedInt l).Perm l := by
  intro l
  induction l with
  | nil => exact List.Perm.refl _
  | cons a t ih =>
    exact (insertSortedInt_perm a (sortedInt t)).trans (ih.cons a)

/-- Inserting into a sorted list keeps it sorted. -/
theorem insertSortedInt_sorted (x : Int) :
    ∀ l : List Int, l.Sorted (· ≤ ·) → (insertSortedInt x l).Sorted (· ≤ ·) := by
  intro l
  induction l with
  | nil => intro _; exact List.sorted_singleton x
  | cons y ys ih =>
    intro h
    rw [List.sorted_cons] at h
    obtain ⟨hy, hys⟩ := h
    simp only [insertSortedInt]
    by_cases hxy : x ≤ y
    · rw [if_pos hxy, List.sorted_cons]
      refine ⟨?_, List.sorted_cons.mpr ⟨hy, hys⟩⟩
      intro b hb
      rcases List.mem_cons.mp hb with hb | hb
      · exact hb ▸ hxy
      · exact le_trans hxy (hy b hb)
    · rw [if_neg hxy, List.sorted_cons]
      refine ⟨?_, ih hys⟩
      intro b hb
      rcases List.mem_cons.mp ((insertSortedInt_perm x ys).mem_iff.mp hb) with hb | hb
      · exact hb ▸ le_of_not_le hxy
      · exact hy b hb

/-- The result of sorting is sorted. -/
theorem sortedInt_sorted : ∀ l : List Int, (sortedInt l).Sorted (· ≤ ·) := by
  intro l
  induction l with
  | nil => exact List.sorted_nil
  | cons a t ih => exact insertSortedInt_sorted a (sortedInt t) ih

/-- The integer casts of `0..n-1` are pairwise `≤`. -/
theorem range_cast_pairwise (n : Nat) :
    ((List.range n).map (fun (k : Nat) => (k : Int))).Pairwise (· ≤ ·) := by
  refine List.Pairwise.map _ ?_ (List.pairwise_lt_range n)
  intro a b hab
  exact_mod_cast Nat.le_of_lt hab

/-- The last element of a list ending in a singleton. -/
theorem getLast_append_singleton {α : Type} (L : List α) (x : α) :
    (L ++ [x]).getLast? = some x :=
  List.getLast?_concat L

/-- A key present in the mapping is found by the dict lookup. -/
theorem dictGet_mem_some (k : Int) :
    ∀ d : List (Int × FilePath), (∃ p ∈ d, p.1 = k) →
      ∃ c, dictGet d k = some c := by
  intro d
  induction d with
  | nil =>
    intro h
    obtain ⟨p, hp, _⟩ := h
    cases hp
  | cons q rest ih =>
    intro h
    cases hq : (q.1 == k) with
    | true =>
      refine ⟨q.2, ?_⟩
      simp [dictGet, List.find?, hq]
    | false =>
      obtain ⟨p, hp, hpk⟩ := h
      have hpr : p ∈ rest := by
        rcases List.mem_cons.mp hp with he | hm
        · exfalso
          rw [he] at hpk
          exact (beq_eq_false_iff_ne.mp hq) hpk
        · exact hm
      obtain ⟨c, hc⟩ := ih ⟨p, hpr, hpk⟩
      refine ⟨c, ?_⟩
      simp only [dictGet, List.find?, hq]
      exact hc

end PadExperiments

namespace PadExperiments

/-! ### Claim C3 -/

/-- C3: a resume-last invocation against a results root whose latest run's
checkpoint directory lists, in arbitrary enumeration order, entries whose
parsed epochs are exactly a permutation of `0..N`, with ledger lines for
epochs `0..N`, resolves to start_epoch `N` — the maximum epoch among the
scanned checkpoints, however the directory happens to be enumerated —
end_epoch `N + requested_num_epochs`, checkpoint_to_load = the scanned
mapping's handle at epoch `N`, and restored learning rate = the ledger's
epoch-`N` value. -/
theorem claim_C3 (fs : FS) (results_path : FilePath) (a : Args) (run_ts : String)
    (r : String) (N : Nat) (ents : List String) (es : List Nat) (g v : Nat → String)
    (ht : a.train = true) (hr : a.resume = some "last")
    (hlast : (sortedStr ((fs.listDir results_path).filter
        (fun n => pyStartsWith "run_" n))).getLast? = some r)
    (hents : fs.listDir (results_path ++ [r] ++ ["checkpoints"]) = ents)
    (hes : ents.map (fun name => parse_epoch_scan (pathStem name)) =
        es.map (fun (k : Nat) => some (k : Int)))
    (hperm : es.Perm (List.range (N + 1)))
    (hledger : fs.ledgerLines (results_path ++ [r]) = some ((List.range (N + 1)).map g))
    (hlines : ∀ k, k < N + 1 →
        line_epoch (g k) = some (k : Int) ∧ line_value (g k) = some (v k)) :
    ∃ d c, scan_checkpoints (results_path ++ [r]) ents = .ok d ∧
      dictGet d (N : Int) = some c ∧
      resolve_plan fs results_path a run_ts =
        .ok ⟨results_path ++ [r], some c, (N : Int), (N : Int) + a.num_epochs,
             some (v N), []⟩ := by
  have hnodup : es.Nodup := (hperm.nodup_iff).mpr (List.nodup_range (N + 1))
  have hscan : scan_checkpoints (results_path ++ [r]) ents =
      .ok (List.zipWith
        (fun (k : Nat) name => ((k : Int), (results_path ++ [r]) ++ ["checkpoints", name]))
        es ents) := by
    have h0 := scan_all_parse (results_path ++ [r]) ents es [] hes hnodup
      (fun _ _ p hp => absurd hp (List.not_mem_nil p))
    rw [List.nil_append] at h0
    exact h0
  have hlen : es.length = ents.length := by
    have hl := congrArg List.length hes
    simpa using hl.symm
  have hkeys : ((List.zipWith
      (fun (k : Nat) name => ((k : Int), (results_path ++ [r]) ++ ["checkpoints", name]))
      es ents).map (fun p => p.1)) = es.map (fun (k : Nat) => (k : Int)) :=
    zipWith_pairs_fst (results_path ++ [r]) es ents hlen
  have hcast : (es.map (fun (k : Nat) => (k : Int))).Perm
      ((List.range (N + 1)).map (fun (k : Nat) => (k : Int))) := hperm.map _
  have hsorteq : sortedInt (es.map (fun (k : Nat) => (k : Int))) =
      (List.range (N + 1)).map (fun (k : Nat) => (k : Int)) :=
    List.eq_of_perm_of_sorted ((sortedInt_perm _).trans hcast)
      (sortedInt_sorted _) (range_cast_pairwise (N + 1))
  have hlastkey : (sortedInt ((List.zipWith
      (fun (k : Nat) name => ((k : Int), (results_path ++ [r]) ++ ["checkpoints", name]))
      es ents).map (fun p => p.1))).getLast? = some (N : Int) := by
    rw [hkeys, hsorteq, List.range_succ, List.map_append]
    exact getLast_append_singleton _ _
  have hNkey : (N : Int) ∈ ((List.zipWith
      (fun (k : Nat) name => ((k : Int), (results_path ++ [r]) ++ ["checkpoints", name]))
      es ents).map (fun p => p.1)) := by
    rw [hkeys]
    exact List.mem_map.mpr
      ⟨N, hperm.mem_iff.mpr (List.mem_range.mpr (Nat.lt_succ_self N)), rfl⟩
  obtain ⟨p, hpd, hp1⟩ := List.mem_map.mp hNkey
  obtain ⟨c, hc⟩ := dictGet_mem_some (N : Int) _ ⟨p, hpd, hp1⟩
  have hresume : resume_or_start fs results_path a run_ts =
      .ok ⟨results_path ++ [r], some c, (N : Int) + a.num_epochs, (N : Int), []⟩ := by
    simp only [resume_or_start, ht, hr, hlast, hents, hscan, hlastkey, hc,
               Bool.true_eq_false, if_false, reduceIte]
  have hsplit : (List.range (N + 1)).map g = (List.range N).map g ++ [g N] := by
    rw [List.range_succ, List.map_append]
    rfl
  have hfirst : restore_loop (N : Int) none ((List.range N).map g) = .ok none := by
    apply restore_loop_no_match
    intro l hl
    obtain ⟨k, hk, hgl⟩ := List.mem_map.mp hl
    have hkN : k < N := List.mem_range.mp hk
    obtain ⟨h1, _⟩ := hlines k (Nat.lt_succ_of_lt hkN)
    subst hgl
    refine ⟨by rw [h1]; rfl, ?_⟩
    rw [h1]
    intro hEq
    have hcastEq : (k : Int) = (N : Int) := Option.some.inj hEq
    have hkNeq : k = N := by exact_mod_cast hcastEq
    omega
  have hrestore : restore_learning_rate ((List.range (N + 1)).map g) (N : Int) =
      .ok (v N) := by
    obtain ⟨hN1, hN2⟩ := hlines N (Nat.lt_succ_self N)
    unfold restore_learning_rate
    rw [hsplit, restore_loop_append_ok (N : Int) ((List.range N).map g) [g N] none none hfirst]
    simp only [restore_loop, hN1, hN2, if_true]
  refine ⟨_, c, hscan, hc, ?_⟩
  simp only [resolve_plan, hresume, hr, hledger, hrestore]

/-- C3 witness: checkpoints listed in the scattered enumeration order
`epoch=2, epoch=0, epoch=4, epoch=1, epoch=3` with ledger lines
`0: 0.0 .. 4: 0.4`, resumed with `resume="last"` and 10 requested epochs,
resolve to start 4 (the maximum epoch, not the last-listed one), end 14,
the epoch-4 handle from the scanned mapping, and learning rate `0.4`. -/
theorem claim_C3_witness :
    ∃ d c, scan_checkpoints ["results", "run_a"]
        ["epoch=2.ckpt", "epoch=0.ckpt", "epoch=4.ckpt", "epoch=1.ckpt", "epoch=3.ckpt"] =
          .ok d ∧
      dictGet d (4 : Int) = some c ∧
      resolve_plan fsC3 ["results"] ⟨true, some "last", 10, none⟩ "TS" =
        .ok ⟨["results", "run_a"], some c, 4, 14, some "0.4", []⟩ :=
  claim_C3 fsC3 ["results"] ⟨true, some "last", 10, none⟩ "TS" "run_a" 4
    ["epoch=2.ckpt", "epoch=0.ckpt", "epoch=4.ckpt", "epoch=1.ckpt", "epoch=3.ckpt"]
    [2, 0, 4, 1, 3]
    (fun k => String.append (Nat.repr k) (String.append ": 0." (Nat.repr k)))
    (fun k => String.append "0." (Nat.repr k))
    rfl rfl (by decide) (by rfl) (by decide) (by decide) (by rfl) (by decide)

end PadExperiments
